import Mathlib

set_option maxHeartbeats 1000000

/-!
Verification of the Kibana export script (export_kibana.py).

The script is embedded shallowly:
  - JSON values are the inductive `Json`; the standard library call json.loads
    is abstracted as a function argument `loads : String → Option Json`
    (none models a JSONDecodeError). A concrete executable JSON reader
    `json_loads` is provided for evaluating the model on concrete inputs.
  - Python string operations used by the script (splitlines, strip,
    one-character replace, os.path.join) are modelled over `List Char`
    following their documented semantics.
  - The filesystem is an association list from path strings to contents;
    HTTP responses are explicit values handed to the model.
  - A Python AttributeError (get called on a non-dict, replace on a
    non-string) and FileNotFoundError are modelled explicitly, since the
    script does not catch them.
-/

namespace KibanaExport

/-- JSON values as produced by json.loads. Numbers are restricted to
integers; none of the verified properties depends on float literals. -/
inductive Json where
  | null : Json
  | bool (b : Bool) : Json
  | num (n : Int) : Json
  | str (s : String) : Json
  | arr (xs : List Json) : Json
  | obj (fields : List (String × Json)) : Json

/-- Python dict lookup over the field list of a JSON object: a later
binding of the same key shadows an earlier one, as for dict built by
json.loads with duplicate keys. -/
def jget : List (String × Json) → String → Option Json
  | [], _ => none
  | (k, v) :: rest, key =>
    match jget rest key with
    | some r => some r
    | none => if k = key then some v else none

/-- Whitespace characters stripped by the Python str.strip default. -/
def pyIsSpace (c : Char) : Bool :=
  c = ' ' || c = '\t' || c = '\n' || c = '\r' || c.toNat = 11 || c.toNat = 12 ||
  c.toNat = 28 || c.toNat = 29 || c.toNat = 30 || c.toNat = 31 || c.toNat = 133 ||
  c.toNat = 160 || c.toNat = 0x1680 || (0x2000 ≤ c.toNat && c.toNat ≤ 0x200a) ||
  c.toNat = 0x2028 || c.toNat = 0x2029 || c.toNat = 0x202f || c.toNat = 0x205f ||
  c.toNat = 0x3000

/-- The test `if obj.strip():` fails exactly when every character of the
line is whitespace. -/
def isBlankLine (s : String) : Bool := s.data.all pyIsSpace

/-- Line boundaries recognised by Python str.splitlines. -/
def lineBreakChar (c : Char) : Bool :=
  c = '\n' || c = '\r' || c.toNat = 11 || c.toNat = 12 || c.toNat = 28 ||
  c.toNat = 29 || c.toNat = 30 || c.toNat = 133 || c.toNat = 0x2028 ||
  c.toNat = 0x2029

/-- Worker for `py_splitlines`; the accumulator holds the current line
reversed. -/
def splitlinesAux : List Char → List Char → List String
  | [], acc => if acc.isEmpty then [] else [String.mk acc.reverse]
  | '\r' :: '\n' :: rest, acc => String.mk acc.reverse :: splitlinesAux rest []
  | c :: rest, acc =>
    if lineBreakChar c then String.mk acc.reverse :: splitlinesAux rest []
    else splitlinesAux rest (c :: acc)

/-- Python str.splitlines. -/
def py_splitlines (s : String) : List String := splitlinesAux s.data []

/-- Python one-character str.replace, as used with the single-character
patterns of the script. -/
def py_replace (s : String) (old new : Char) : String :=
  String.mk (s.data.map (fun c => if c = old then new else c))

/-- Decimal digit characters, used for rendering numbers. -/
def digitChar (d : Nat) : Char :=
  if d = 0 then '0' else if d = 1 then '1' else if d = 2 then '2'
  else if d = 3 then '3' else if d = 4 then '4' else if d = 5 then '5'
  else if d = 6 then '6' else if d = 7 then '7' else if d = 8 then '8' else '9'

/-- Fuelled decimal rendering of a natural number, most significant digit
first. -/
def natToStrAux : Nat → Nat → List Char
  | 0, _ => []
  | fuel + 1, n =>
    if n < 10 then [digitChar n]
    else natToStrAux fuel (n / 10) ++ [digitChar (n % 10)]

/-- Decimal rendering of a natural number, as Python str of an int. -/
def natToStr (n : Nat) : String := String.mk (natToStrAux (n + 1) n)

/-- Decimal rendering of an integer. -/
def intToStr (n : Int) : String :=
  if n < 0 then "-" ++ natToStr n.natAbs else natToStr n.natAbs

/-- posixpath.join with one extra component, as called by the script. -/
def ospath_join (a b : String) : String :=
  if b.data.head? = some '/' then b
  else if a = "" then b
  else if a.data.getLast? = some '/' then a ++ b
  else a ++ "/" ++ b

/-! ### A concrete JSON reader

Used only to evaluate the model on concrete inputs; the theorems are
stated for an arbitrary `loads` function. It accepts the JSON fragment
actually exercised: null, booleans, integer numbers, strings with the
simple escapes, arrays and objects. -/

/-- Skip JSON whitespace. -/
def skipWs : List Char → List Char
  | [] => []
  | c :: cs => if c = ' ' || c = '\t' || c = '\n' || c = '\r' then skipWs cs else c :: cs

/-- Resolution of a simple JSON string escape. -/
def escChar (c : Char) : Option Char :=
  if c = '"' ∨ c = '\\' ∨ c = '/' then some c
  else if c = 'n' then some '\n'
  else if c = 't' then some '\t'
  else if c = 'r' then some '\r'
  else if c = 'b' then some (Char.ofNat 8)
  else if c = 'f' then some (Char.ofNat 12)
  else none

/-- Read the characters of a JSON string up to the closing quote. -/
def readStringChars : Nat → List Char → Option (List Char × List Char)
  | 0, _ => none
  | _ + 1, [] => none
  | _ + 1, '"' :: rest => some ([], rest)
  | fuel + 1, '\\' :: rest =>
    match rest with
    | [] => none
    | e :: rest2 =>
      match escChar e, readStringChars fuel rest2 with
      | some c, some (s, r) => some (c :: s, r)
      | _, _ => none
  | fuel + 1, c :: rest =>
    match readStringChars fuel rest with
    | some (s, r) => some (c :: s, r)
    | none => none

/-- Longest leading run of decimal digits. -/
def takeDigits : List Char → List Char × List Char
  | [] => ([], [])
  | c :: cs =>
    if c.isDigit then
      let r := takeDigits cs
      (c :: r.1, r.2)
    else ([], c :: cs)

/-- Numeric value of a digit run. -/
def digitsToNat (ds : List Char) : Nat := ds.foldl (fun a c => a * 10 + (c.toNat - 48)) 0

/-- True when the characters after a digit run would make the number a
float; such numbers are outside the model and rejected. -/
def numberTail : List Char → Bool
  | c :: _ => c = '.' || c = 'e' || c = 'E'
  | [] => false

/-- When the word is a prefix of the input, the input past it. -/
def dropWord (w : String) : List Char → Option (List Char)
  | cs =>
    let rec go : List Char → List Char → Option (List Char)
      | [], rest => some rest
      | k :: ks, c :: rest => if c = k then go ks rest else none
      | _ :: _, [] => none
    go w.data cs

mutual

/-- Read one JSON value. -/
def readValue : Nat → List Char → Option (Json × List Char)
  | 0, _ => none
  | _ + 1, 'n' :: more =>
    (dropWord "ull" more).map (fun rest => (Json.null, rest))
  | _ + 1, 't' :: more =>
    (dropWord "rue" more).map (fun rest => (Json.bool true, rest))
  | _ + 1, 'f' :: more =>
    (dropWord "alse" more).map (fun rest => (Json.bool false, rest))
  | fuel + 1, '"' :: rest =>
    match readStringChars (fuel + 1) rest with
    | some (s, r) => some (Json.str (String.mk s), r)
    | none => none
  | fuel + 1, '[' :: rest =>
    match skipWs rest with
    | ']' :: r => some (Json.arr [], r)
    | other =>
      match readItems fuel other with
      | some (xs, r) => some (Json.arr xs, r)
      | none => none
  | fuel + 1, '\x7b' :: rest =>
    match skipWs rest with
    | '\x7d' :: r => some (Json.obj [], r)
    | other =>
      match readFields fuel other with
      | some (fs, r) => some (Json.obj fs, r)
      | none => none
  | _ + 1, '-' :: rest =>
    match takeDigits rest with
    | ([], _) => none
    | (ds, r) => if numberTail r then none else some (Json.num (-(digitsToNat ds : Int)), r)
  | _ + 1, c :: rest =>
    if c.isDigit then
      match takeDigits (c :: rest) with
      | (ds, r) => if numberTail r then none else some (Json.num (digitsToNat ds), r)
    else none
  | _ + 1, [] => none

/-- Read the comma-separated items of a non-empty JSON array. -/
def readItems : Nat → List Char → Option (List Json × List Char)
  | 0, _ => none
  | fuel + 1, cs =>
    match readValue fuel (skipWs cs) with
    | none => none
    | some (v, r) =>
      match skipWs r with
      | ',' :: r2 =>
        match readItems fuel r2 with
        | some (vs, r3) => some (v :: vs, r3)
        | none => none
      | ']' :: r2 => some ([v], r2)
      | _ => none

/-- Read the members of a non-empty JSON object. -/
def readFields : Nat → List Char → Option (List (String × Json) × List Char)
  | 0, _ => none
  | fuel + 1, cs =>
    match skipWs cs with
    | '"' :: r =>
      match readStringChars (fuel + 1) r with
      | none => none
      | some (k, r2) =>
        match skipWs r2 with
        | ':' :: r3 =>
          match readValue fuel (skipWs r3) with
          | none => none
          | some (v, r4) =>
            match skipWs r4 with
            | ',' :: r5 =>
              match readFields fuel r5 with
              | some (fs, r6) => some ((String.mk k, v) :: fs, r6)
              | none => none
            | '\x7d' :: r5 => some ([(String.mk k, v)], r5)
            | _ => none
        | _ => none
    | _ => none

end

/-- The concrete stand-in for json.loads on the modelled fragment: reads
one value, allowing surrounding whitespace only. -/
def json_loads (s : String) : Option Json :=
  match readValue (2 * s.length + 8) (skipWs s.data) with
  | some (v, r) => if skipWs r = [] then some v else none
  | none => none

/-! ### JSON output rendering (json.dump) -/

/-- Hexadecimal digit characters. -/
def hexChar (d : Nat) : Char :=
  if d < 10 then digitChar d
  else if d = 10 then 'a' else if d = 11 then 'b' else if d = 12 then 'c'
  else if d = 13 then 'd' else if d = 14 then 'e' else 'f'

/-- Escaping of one character inside a rendered JSON string, with
ensure_ascii false. -/
def escCharJson (c : Char) : List Char :=
  if c = '"' then ['\\', '"']
  else if c = '\\' then ['\\', '\\']
  else if c = '\n' then ['\\', 'n']
  else if c = '\t' then ['\\', 't']
  else if c = '\r' then ['\\', 'r']
  else if c.toNat = 8 then ['\\', 'b']
  else if c.toNat = 12 then ['\\', 'f']
  else if c.toNat < 32 then ['\\', 'u', '0', '0', hexChar (c.toNat / 16), hexChar (c.toNat % 16)]
  else [c]

/-- Rendered form of a JSON string body. -/
def escapeJsonString (s : String) : String := String.mk (s.data.map escCharJson).flatten

mutual

/-- json.dump with the default separators and no indent, as used for the
space details file. -/
def json_dump : Json → String
  | Json.null => "null"
  | Json.bool true => "true"
  | Json.bool false => "false"
  | Json.num n => intToStr n
  | Json.str s => "\"" ++ escapeJsonString s ++ "\""
  | Json.arr xs => "[" ++ dumpItemsC xs ++ "]"
  | Json.obj fs => "\x7b" ++ dumpFieldsC fs ++ "\x7d"

/-- Comma-separated array items for `json_dump`. -/
def dumpItemsC : List Json → String
  | [] => ""
  | [x] => json_dump x
  | x :: y :: rest => json_dump x ++ ", " ++ dumpItemsC (y :: rest)

/-- Comma-separated object members for `json_dump`. -/
def dumpFieldsC : List (String × Json) → String
  | [] => ""
  | [(k, v)] => "\"" ++ escapeJsonString k ++ "\": " ++ json_dump v
  | (k, v) :: f :: rest =>
    "\"" ++ escapeJsonString k ++ "\": " ++ json_dump v ++ ", " ++ dumpFieldsC (f :: rest)

end

/-- Indentation prefix at a nesting level for json.dump with indent four. -/
def indentPad (n : Nat) : String := String.mk (List.replicate (4 * n) ' ')

mutual

/-- json.dump with indent four and ensure_ascii false, as used for the
per-document files written by the splitter. -/
def json_dump_indent : Nat → Json → String
  | _, Json.null => "null"
  | _, Json.bool true => "true"
  | _, Json.bool false => "false"
  | _, Json.num n => intToStr n
  | _, Json.str s => "\"" ++ escapeJsonString s ++ "\""
  | _, Json.arr [] => "[]"
  | lvl, Json.arr (x :: xs) =>
    "[\n" ++ dumpItemsI (lvl + 1) (x :: xs) ++ "\n" ++ indentPad lvl ++ "]"
  | _, Json.obj [] => "\x7b\x7d"
  | lvl, Json.obj (f :: fs) =>
    "\x7b\n" ++ dumpFieldsI (lvl + 1) (f :: fs) ++ "\n" ++ indentPad lvl ++ "\x7d"

/-- Indented array items for `json_dump_indent`. -/
def dumpItemsI : Nat → List Json → String
  | _, [] => ""
  | lvl, [x] => indentPad lvl ++ json_dump_indent lvl x
  | lvl, x :: y :: rest =>
    indentPad lvl ++ json_dump_indent lvl x ++ ",\n" ++ dumpItemsI lvl (y :: rest)

/-- Indented object members for `json_dump_indent`. -/
def dumpFieldsI : Nat → List (String × Json) → String
  | _, [] => ""
  | lvl, [(k, v)] =>
    indentPad lvl ++ "\"" ++ escapeJsonString k ++ "\": " ++ json_dump_indent lvl v
  | lvl, (k, v) :: f :: rest =>
    indentPad lvl ++ "\"" ++ escapeJsonString k ++ "\": " ++ json_dump_indent lvl v ++
      ",\n" ++ dumpFieldsI lvl (f :: rest)

end

/-! ### The NDJSON splitter -/

/-- Uncaught Python exceptions of the modelled code paths. -/
inductive PyError where
  | attributeError : PyError

/-- The loop body of parse_nonstandard_json over the lines of the file:
blank lines are skipped, lines json.loads accepts become documents, the
rest are counted as printed parse errors. -/
def parseLines (loads : String → Option Json) : List String → List Json × Nat
  | [] => ([], 0)
  | l :: rest =>
    let r := parseLines loads rest
    if isBlankLine l then r
    else
      match loads l with
      | some d => (d :: r.1, r.2)
      | none => (r.1, r.2 + 1)

/-- parse_nonstandard_json applied to the whole file content: documents in
line order together with the number of reported parse errors. -/
def parse_nonstandard_json (loads : String → Option Json) (content : String) :
    List Json × Nat :=
  parseLines loads (py_splitlines content)

/-- The title expression of parse_and_save_documents for the document at
zero-based index i: doc.get of attributes with an empty dict default,
then get of title with the default document_ followed by i + 1. A
non-dict receiver of get or a non-string title raises AttributeError. -/
def doc_title (doc : Json) (i : Nat) : Except PyError String :=
  match doc with
  | Json.obj fields =>
    match (jget fields "attributes").getD (Json.obj []) with
    | Json.obj afields =>
      match jget afields "title" with
      | some (Json.str t) => Except.ok t
      | some _ => Except.error PyError.attributeError
      | none => Except.ok ("document_" ++ natToStr (i + 1))
    | _ => Except.error PyError.attributeError
  | _ => Except.error PyError.attributeError

/-- The two replace calls applied to the title. -/
def sanitize_title (t : String) : String := py_replace (py_replace t ' ' '_') '/' '_'

/-- The save loop of parse_and_save_documents from index i on: the files
written in order, paired with the document each holds, and the
AttributeError that aborted the loop, if any. -/
def saveLoop (outDir : String) : Nat → List Json → List (String × Json) × Option PyError
  | _, [] => ([], none)
  | i, doc :: rest =>
    match doc_title doc i with
    | Except.error e => ([], some e)
    | Except.ok t =>
      let path := ospath_join outDir (sanitize_title t ++ ".json")
      let r := saveLoop outDir (i + 1) rest
      ((path, doc) :: r.1, r.2)

/-- What a run of parse_and_save_documents does: the files it writes in
order, the parse errors it reports, and the exception that aborted it. -/
structure SplitOutcome where
  saved : List (String × Json)
  parseErrors : Nat
  crash : Option PyError

/-- parse_and_save_documents on the content of the input file. -/
def parse_and_save_documents (loads : String → Option Json) (content : String)
    (outDir : String) : SplitOutcome :=
  let r := parse_nonstandard_json loads content
  let s := saveLoop outDir 0 r.1
  ⟨s.1, r.2, s.2⟩

/-! ### Spaces, validation and export -/

/-- A space as returned by the server: its id and the full JSON object. -/
structure Space where
  id : String
  data : Json

/-- Python truthiness of the optional space id list argument. -/
def truthy : Option (List String) → Bool
  | none => false
  | some l => !l.isEmpty

/-- Observable behaviour of validate_spaces. -/
inductive ValidateResult where
  | exited (invalid : List String) (code : Nat) : ValidateResult
  | returned : ValidateResult

/-- validate_spaces: the invalid ids are the requested ids absent from the
server list (empty when the argument is falsy); a non-empty invalid list
is logged and the process exits with status one. -/
def validate_spaces (spaces : Option (List String)) (all_spaces : List Space) :
    ValidateResult :=
  let valid_ids := all_spaces.map Space.id
  let invalid :=
    if truthy spaces then (spaces.getD []).filter (fun s => !valid_ids.contains s) else []
  if invalid.isEmpty then ValidateResult.returned else ValidateResult.exited invalid 1

/-- The space selection of main: every space when the argument is falsy,
otherwise the server spaces whose id occurs in the argument. -/
def spaces_to_export (args_spaces : Option (List String)) (all_spaces : List Space) :
    List Space :=
  if truthy args_spaces then
    all_spaces.filter (fun sp => (args_spaces.getD []).contains sp.id)
  else all_spaces

/-- export_space_details: the file it writes, as a path and content pair. -/
def export_space_details (spaces : List Space) (export_dir : String) : String × String :=
  (ospath_join export_dir "spaces_details.json",
   json_dump (Json.arr (spaces.map Space.data)))

/-- An HTTP response as seen by the script. -/
structure Response where
  status_code : Nat
  content : String
  text : String

/-- Observable behaviour of export_objects for one space. -/
inductive ExportResult where
  | skipped (errLog : String) (bodyLog : String) : ExportResult
  | written (path : String) (content : String) : ExportResult

/-- export_objects: raise_for_status raises exactly for the 4xx and 5xx
status codes; then the error and the response body are logged and the
function returns; otherwise the raw response content is written to the
space file under the export directory. -/
def export_objects (r : Response) (export_dir space_id : String) : ExportResult :=
  if 400 ≤ r.status_code ∧ r.status_code < 600 then
    ExportResult.skipped ("Failed to export objects for space " ++ space_id)
      ("Response was: " ++ r.text)
  else
    ExportResult.written (ospath_join export_dir (space_id ++ ".json")) r.content

/-! ### The main loop over the selected spaces -/

/-- The filesystem: an association list from paths to file contents, most
recent write first. -/
abbrev FS := List (String × String)

/-- Writing a file. -/
def fsWrite (fs : FS) (path content : String) : FS := (path, content) :: fs

/-- Reading a file: none models FileNotFoundError. -/
def fsRead (fs : FS) (path : String) : Option String :=
  match fs with
  | [] => none
  | (p, c) :: rest => if p = path then some c else fsRead rest path

/-- Effect of an export_objects result on the filesystem. -/
def apply_export (fs : FS) : ExportResult → FS
  | ExportResult.skipped _ _ => fs
  | ExportResult.written path content => fsWrite fs path content

/-- The hardcoded splitter input path built in main. -/
def split_input_file (space_id : String) : String := "export/" ++ space_id ++ ".json"

/-- The splitter output directory built in main. -/
def split_output_dir (space_id : String) : String := "output_" ++ space_id

/-- Uncaught exceptions that abort the main loop. -/
inductive RunError where
  | fileNotFound (path : String) : RunError
  | attributeError : RunError

/-- What main did for one space. -/
structure SpaceRecord where
  space_id : String
  exportResult : ExportResult
  split : Option SplitOutcome

/-- Writing the files saved by a splitter run. -/
def write_saved (fs : FS) (saved : List (String × Json)) : FS :=
  saved.foldl (fun f pd => fsWrite f pd.1 (json_dump_indent 0 pd.2)) fs

/-- One iteration of the main loop: export the space, then split the file
at the hardcoded input path. A missing input file or an AttributeError in
the save loop aborts the run. -/
def process_space (loads : String → Option Json) (export_dir : String) (fs : FS)
    (sp : Space) (r : Response) : FS × SpaceRecord × Option RunError :=
  let er := export_objects r export_dir sp.id
  let fs1 := apply_export fs er
  match fsRead fs1 (split_input_file sp.id) with
  | none => (fs1, ⟨sp.id, er, none⟩, some (RunError.fileNotFound (split_input_file sp.id)))
  | some content =>
    let so := parse_and_save_documents loads content (split_output_dir sp.id)
    let fs2 := write_saved fs1 so.saved
    (fs2, ⟨sp.id, er, some so⟩,
      match so.crash with
      | some _ => some RunError.attributeError
      | none => none)

/-- The main loop over the selected spaces: the final filesystem, one
record per space reached, and the uncaught exception that ended the run
early, if any. -/
def run_loop (loads : String → Option Json) (export_dir : String)
    (resp : String → Response) : List Space → FS → FS × List SpaceRecord × Option RunError
  | [], fs => (fs, [], none)
  | sp :: rest, fs =>
    match process_space loads export_dir fs sp (resp sp.id) with
    | (fs1, rec, some e) => (fs1, [rec], some e)
    | (fs1, rec, none) =>
      match run_loop loads export_dir resp rest fs1 with
      | (fs2, recs, e2) => (fs2, rec :: recs, e2)

/-- main after the spaces were fetched: validate (an error is the logged
invalid ids with the exit code), write the space details file, then run
the loop. -/
def main_run (loads : String → Option Json) (args_spaces : Option (List String))
    (export_dir : String) (all_spaces : List Space) (resp : String → Response)
    (fs0 : FS) : Except (List String × Nat) (FS × List SpaceRecord × Option RunError) :=
  match validate_spaces args_spaces all_spaces with
  | ValidateResult.exited invalid code => Except.error (invalid, code)
  | ValidateResult.returned =>
    let sel := spaces_to_export args_spaces all_spaces
    let details := export_space_details sel export_dir
    let fs1 := fsWrite fs0 details.1 details.2
    Except.ok (run_loop loads export_dir resp sel fs1)

/-! ### Predicates over parsed documents, following the data model of the
spec: a saved object is a JSON object whose attributes member, when
present, is an object whose title member, when present, is a string. -/

/-- The title derivation of the splitter succeeds on this document at any
index. -/
def saveWellFormed (doc : Json) : Bool :=
  match doc with
  | Json.obj fields =>
    match (jget fields "attributes").getD (Json.obj []) with
    | Json.obj afields =>
      match jget afields "title" with
      | some (Json.str _) => true
      | some _ => false
      | none => true
    | _ => false
  | _ => false

/-- The document carries no attributes title, so the positional default
name applies. -/
def hasNoTitle (doc : Json) : Bool :=
  match doc with
  | Json.obj fields =>
    match (jget fields "attributes").getD (Json.obj []) with
    | Json.obj afields => (jget afields "title").isNone
    | _ => false
  | _ => false

/-- The string title of the document, when it has one. -/
def doc_title_attr (doc : Json) : Option String :=
  match doc with
  | Json.obj fields =>
    match (jget fields "attributes").getD (Json.obj []) with
    | Json.obj afields =>
      match jget afields "title" with
      | some (Json.str t) => some t
      | _ => none
    | _ => none
  | _ => none

/-- Total reading of the title derivation, defaulting to the empty string
on the error case. -/
def titleD (doc : Json) (i : Nat) : String :=
  match doc_title doc i with
  | Except.ok t => t
  | Except.error _ => ""

/-! ### Helper lemmas -/

theorem str_ext {a b : String} (h : a.data = b.data) : a = b := by
  cases a
  cases b
  simp_all

theorem digitChar_ne_space_slash (d : Nat) : digitChar d ≠ ' ' ∧ digitChar d ≠ '/' := by
  unfold digitChar
  split_ifs <;> exact ⟨by decide, by decide⟩

theorem natToStrAux_ne_space_slash (fuel n : Nat) :
    ∀ c ∈ natToStrAux fuel n, c ≠ ' ' ∧ c ≠ '/' := by
  induction fuel generalizing n with
  | zero => intro c hc; simp [natToStrAux] at hc
  | succ fuel ih =>
    intro c hc
    unfold natToStrAux at hc
    by_cases h : n < 10
    · simp [h] at hc
      subst hc
      exact digitChar_ne_space_slash n
    · simp [h, List.mem_append] at hc
      rcases hc with hc | hc
      · exact ih (n / 10) c hc
      · subst hc
        exact digitChar_ne_space_slash (n % 10)

theorem sanitize_title_of_clean (t : String)
    (h : ∀ c ∈ t.data, c ≠ ' ' ∧ c ≠ '/') : sanitize_title t = t := by
  unfold sanitize_title py_replace
  apply str_ext
  show List.map _ (List.map _ t.data) = t.data
  rw [List.map_map]
  have : ∀ c ∈ t.data, ((fun c => if c = '/' then '_' else c) ∘
      fun c => if c = ' ' then '_' else c) c = id c := by
    intro c hc
    rcases h c hc with ⟨h1, h2⟩
    simp [Function.comp, h1, h2]
  rw [List.map_congr_left this, List.map_id]

theorem sanitize_title_docname (i : Nat) :
    sanitize_title ("document_" ++ natToStr i) = "document_" ++ natToStr i := by
  apply sanitize_title_of_clean
  intro c hc
  rw [String.data_append] at hc
  have hdoc : ∀ c ∈ "document_".data, c ≠ ' ' ∧ c ≠ '/' := by decide
  rcases List.mem_append.mp hc with hc | hc
  · exact hdoc c hc
  · exact natToStrAux_ne_space_slash _ _ c hc

theorem doc_title_classify (doc : Json) (i : Nat) :
    (hasNoTitle doc = true ∧ saveWellFormed doc = true ∧ doc_title_attr doc = none ∧
      doc_title doc i = Except.ok ("document_" ++ natToStr (i + 1)))
    ∨ (∃ t, doc_title_attr doc = some t ∧ saveWellFormed doc = true ∧
        hasNoTitle doc = false ∧ doc_title doc i = Except.ok t)
    ∨ (saveWellFormed doc = false ∧ hasNoTitle doc = false ∧ doc_title_attr doc = none ∧
        doc_title doc i = Except.error PyError.attributeError) := by
  cases doc with
  | obj fields =>
    cases hA : (jget fields "attributes").getD (Json.obj []) with
    | obj afields =>
      cases hT : jget afields "title" with
      | none =>
        left
        simp [hasNoTitle, saveWellFormed, doc_title_attr, doc_title, hA, hT]
      | some v =>
        cases v with
        | str t =>
          right; left
          exact ⟨t, by simp [doc_title_attr, hA, hT],
            by simp [saveWellFormed, hA, hT], by simp [hasNoTitle, hA, hT],
            by simp [doc_title, hA, hT]⟩
        | null =>
          right; right
          simp [hasNoTitle, saveWellFormed, doc_title_attr, doc_title, hA, hT]
        | bool b =>
          right; right
          simp [hasNoTitle, saveWellFormed, doc_title_attr, doc_title, hA, hT]
        | num n =>
          right; right
          simp [hasNoTitle, saveWellFormed, doc_title_attr, doc_title, hA, hT]
        | arr xs =>
          right; right
          simp [hasNoTitle, saveWellFormed, doc_title_attr, doc_title, hA, hT]
        | obj fs =>
          right; right
          simp [hasNoTitle, saveWellFormed, doc_title_attr, doc_title, hA, hT]
    | null =>
      right; right
      simp [hasNoTitle, saveWellFormed, doc_title_attr, doc_title, hA]
    | bool b =>
      right; right
      simp [hasNoTitle, saveWellFormed, doc_title_attr, doc_title, hA]
    | num n =>
      right; right
      simp [hasNoTitle, saveWellFormed, doc_title_attr, doc_title, hA]
    | str s =>
      right; right
      simp [hasNoTitle, saveWellFormed, doc_title_attr, doc_title, hA]
    | arr xs =>
      right; right
      simp [hasNoTitle, saveWellFormed, doc_title_attr, doc_title, hA]
  | null =>
    right; right
    simp [hasNoTitle, saveWellFormed, doc_title_attr, doc_title]
  | bool b =>
    right; right
    simp [hasNoTitle, saveWellFormed, doc_title_attr, doc_title]
  | num n =>
    right; right
    simp [hasNoTitle, saveWellFormed, doc_title_attr, doc_title]
  | str s =>
    right; right
    simp [hasNoTitle, saveWellFormed, doc_title_attr, doc_title]
  | arr xs =>
    right; right
    simp [hasNoTitle, saveWellFormed, doc_title_attr, doc_title]

theorem doc_title_of_wellFormed (doc : Json) (i : Nat)
    (h : saveWellFormed doc = true) : doc_title doc i = Except.ok (titleD doc i) := by
  rcases doc_title_classify doc i with ⟨_, _, _, he⟩ | ⟨t, _, _, _, he⟩ | ⟨hf, _, _, _⟩
  · rw [he]; unfold titleD; rw [he]
  · rw [he]; unfold titleD; rw [he]
  · rw [hf] at h; exact absurd h (by decide)

theorem titleD_of_hasNoTitle (doc : Json) (i : Nat) (h : hasNoTitle doc = true) :
    titleD doc i = "document_" ++ natToStr (i + 1) := by
  rcases doc_title_classify doc i with ⟨_, _, _, he⟩ | ⟨t, _, _, hn, _⟩ | ⟨_, hn, _, _⟩
  · unfold titleD; rw [he]
  · rw [hn] at h; exact absurd h (by decide)
  · rw [hn] at h; exact absurd h (by decide)

theorem saveWellFormed_of_hasNoTitle (doc : Json) (h : hasNoTitle doc = true) :
    saveWellFormed doc = true := by
  rcases doc_title_classify doc 0 with ⟨_, hw, _, _⟩ | ⟨t, _, hw, hn, _⟩ | ⟨_, hn, _, _⟩
  · exact hw
  · rw [hn] at h; exact absurd h (by decide)
  · rw [hn] at h; exact absurd h (by decide)

theorem titleD_of_doc_title_attr (doc : Json) (i : Nat) (t : String)
    (h : doc_title_attr doc = some t) : titleD doc i = t := by
  rcases doc_title_classify doc i with ⟨_, _, ha, _⟩ | ⟨u, ha, _, _, he⟩ | ⟨_, _, ha, _⟩
  · rw [ha] at h; exact absurd h (by simp)
  · rw [ha] at h
    have : u = t := by injection h
    subst this
    unfold titleD; rw [he]
  · rw [ha] at h; exact absurd h (by simp)

theorem saveWellFormed_of_doc_title_attr (doc : Json) (t : String)
    (h : doc_title_attr doc = some t) : saveWellFormed doc = true := by
  rcases doc_title_classify doc 0 with ⟨_, _, ha, _⟩ | ⟨u, ha, hw, _, _⟩ | ⟨_, _, ha, _⟩
  · rw [ha] at h; exact absurd h (by simp)
  · exact hw
  · rw [ha] at h; exact absurd h (by simp)

theorem sanitize_title_eq_map (t : String) :
    sanitize_title t
      = String.mk (t.data.map (fun c => if c = ' ' || c = '/' then '_' else c)) := by
  apply str_ext
  show List.map _ (List.map _ t.data) = _
  rw [List.map_map]
  have hfun : ((fun c => if c = '/' then '_' else c) ∘ fun c => if c = ' ' then '_' else c)
      = (fun c : Char => if c = ' ' || c = '/' then '_' else c) := by
    funext c
    by_cases h1 : c = ' ' <;> by_cases h2 : c = '/' <;> simp [Function.comp, h1, h2]
  rw [hfun]

theorem parseLines_noblank (loads : String → Option Json) (lines : List String)
    (h : ∀ l ∈ lines, isBlankLine l = false) :
    (parseLines loads lines).1.length
        = (lines.filter (fun l => (loads l).isSome)).length
    ∧ (parseLines loads lines).2
        + (lines.filter (fun l => (loads l).isSome)).length = lines.length := by
  induction lines with
  | nil => simp [parseLines]
  | cons l rest ih =>
    have hl : isBlankLine l = false := h l (by simp)
    obtain ⟨h1, h2⟩ := ih (fun x hx => h x (by simp [hx]))
    cases hL : loads l with
    | some d =>
      constructor
      · simp [parseLines, hl, hL, List.filter_cons, h1]
      · simp [parseLines, hl, hL, List.filter_cons]
        omega
    | none =>
      constructor
      · simp [parseLines, hl, hL, List.filter_cons, h1]
      · simp [parseLines, hl, hL, List.filter_cons]
        omega

theorem parseLines_skip_blank (loads : String → Option Json) (lines : List String) :
    parseLines loads lines = parseLines loads (lines.filter (fun l => !isBlankLine l)) := by
  induction lines with
  | nil => simp
  | cons l rest ih =>
    by_cases hb : isBlankLine l = true
    · simp [parseLines, hb, List.filter_cons, ih]
    · have hb' : isBlankLine l = false := eq_false_of_ne_true hb
      cases hL : loads l <;>
        simp [parseLines, hb', hL, List.filter_cons, ih]

theorem parseLines_congr (loads1 loads2 : String → Option Json) (lines : List String)
    (h : ∀ l ∈ lines, isBlankLine l = false → loads1 l = loads2 l) :
    parseLines loads1 lines = parseLines loads2 lines := by
  induction lines with
  | nil => rfl
  | cons l rest ih =>
    have hrest := ih (fun x hx => h x (by simp [hx]))
    by_cases hb : isBlankLine l
    · simp [parseLines, hb, hrest]
    · have hl := h l (by simp) (eq_false_of_ne_true hb)
      cases hL : loads1 l <;>
        simp [parseLines, hb, hL, ← hl, hrest]

theorem saveLoop_wf (outDir : String) (docs : List Json)
    (h : ∀ d ∈ docs, saveWellFormed d = true) (k : Nat) :
    (saveLoop outDir k docs).1.length = docs.length
    ∧ (saveLoop outDir k docs).2 = none := by
  induction docs generalizing k with
  | nil => simp [saveLoop]
  | cons doc rest ih =>
    have hw := h doc (by simp)
    have hrest := ih (fun d hd => h d (by simp [hd])) (k + 1)
    simp [saveLoop, doc_title_of_wellFormed doc k hw, hrest.1, hrest.2]

theorem saveLoop_get (outDir : String) :
    ∀ (docs : List Json), (∀ x ∈ docs, saveWellFormed x = true) →
      ∀ (k i : Nat) (d : Json), docs[i]? = some d →
        (saveLoop outDir k docs).1[i]?
          = some (ospath_join outDir (sanitize_title (titleD d (k + i)) ++ ".json"), d) := by
  intro docs
  induction docs with
  | nil =>
    intro _ k i d hd
    simp at hd
  | cons doc rest ih =>
    intro h k i d hd
    have hw := h doc (by simp)
    cases i with
    | zero =>
      obtain rfl : doc = d := by simpa using hd
      simp [saveLoop, doc_title_of_wellFormed doc k hw]
    | succ i =>
      have hd' : rest[i]? = some d := by simpa using hd
      have hrec := ih (fun x hx => h x (by simp [hx])) (k + 1) i d hd'
      simp only [saveLoop, doc_title_of_wellFormed doc k hw]
      simpa [Nat.add_assoc, Nat.add_comm 1 i] using hrec

/-- C1 (amended): for an NDJSON input whose N lines are all non-blank, of
which exactly K are accepted by json.loads, and whose parsed documents
all fit the saved object data model, the splitter writes exactly K files
and reports exactly N minus K parse errors, without raising. -/
theorem C1_amended_splitter_counts (loads : String → Option Json) (content outDir : String)
    (hnb : ∀ l ∈ py_splitlines content, isBlankLine l = false)
    (hwf : ∀ d ∈ (parse_nonstandard_json loads content).1, saveWellFormed d = true) :
    (parse_and_save_documents loads content outDir).saved.length
        = ((py_splitlines content).filter (fun l => (loads l).isSome)).length
    ∧ (parse_and_save_documents loads content outDir).parseErrors
        = (py_splitlines content).length
          - ((py_splitlines content).filter (fun l => (loads l).isSome)).length
    ∧ (parse_and_save_documents loads content outDir).crash = none := by
  have hp := parseLines_noblank loads (py_splitlines content) hnb
  have hs := saveLoop_wf outDir (parse_nonstandard_json loads content).1 hwf 0
  unfold parse_and_save_documents
  refine ⟨?_, ?_, ?_⟩
  · show (saveLoop outDir 0 (parse_nonstandard_json loads content).1).1.length = _
    rw [hs.1]
    exact hp.1
  · show (parseLines loads (py_splitlines content)).2 = _
    omega
  · exact hs.2

/-- C1 witness instance. -/
theorem C1_witness :
    (parse_and_save_documents json_loads "\x7b\x7d" "out").saved.length
        = ((py_splitlines "\x7b\x7d").filter (fun l => (json_loads l).isSome)).length
    ∧ (parse_and_save_documents json_loads "\x7b\x7d" "out").parseErrors
        = (py_splitlines "\x7b\x7d").length
          - ((py_splitlines "\x7b\x7d").filter (fun l => (json_loads l).isSome)).length
    ∧ (parse_and_save_documents json_loads "\x7b\x7d" "out").crash = none :=
  C1_amended_splitter_counts json_loads "\x7b\x7d" "out" (by decide) (by decide)

/-- C1 counterexample: a file holding one whitespace-only line. It has
one line and no valid JSON line, so the claim demands one reported parse
error, but the splitter reports none (and writes no file). -/
theorem C1_counterexample :
    (py_splitlines " ").length = 1
    ∧ ((py_splitlines " ").filter (fun l => (json_loads l).isSome)).length = 0
    ∧ (parse_and_save_documents json_loads " " "out").saved.length = 0
    ∧ (parse_and_save_documents json_loads " " "out").parseErrors = 0 := by
  decide

/-- C6: a parsed document carrying no attributes title (its documents all
fitting the saved object data model) is saved under the synthetic name
document_ n .json, n its one-based position among the parsed documents. -/
theorem C6_untitled_document_name (loads : String → Option Json) (content outDir : String)
    (hwf : ∀ d ∈ (parse_nonstandard_json loads content).1, saveWellFormed d = true)
    (i : Nat) (d : Json)
    (hd : (parse_nonstandard_json loads content).1[i]? = some d)
    (ht : hasNoTitle d = true) :
    (parse_and_save_documents loads content outDir).saved[i]?
      = some (ospath_join outDir ("document_" ++ natToStr (i + 1) ++ ".json"), d) := by
  have hg := saveLoop_get outDir (parse_nonstandard_json loads content).1 hwf 0 i d hd
  rw [titleD_of_hasNoTitle d (0 + i) ht] at hg
  show (saveLoop outDir 0 (parse_nonstandard_json loads content).1).1[i]? = _
  rw [hg, sanitize_title_docname]
  simp [Nat.zero_add]

/-- C6 witness instance: one untitled document, saved as document_1.json. -/
theorem C6_witness :
    (parse_and_save_documents json_loads "\x7b\x7d" "out").saved[0]?
      = some ("out/document_1.json", Json.obj []) := by
  have h := C6_untitled_document_name json_loads "\x7b\x7d" "out" (by decide) 0
    (Json.obj []) rfl rfl
  rw [h]
  rfl

/-- C7: a parsed document with a string title (its documents all fitting
the saved object data model) is saved under the title with every space
and every slash character replaced by an underscore, suffixed .json. -/
theorem C7_title_sanitization (loads : String → Option Json) (content outDir : String)
    (hwf : ∀ d ∈ (parse_nonstandard_json loads content).1, saveWellFormed d = true)
    (i : Nat) (d : Json) (t : String)
    (hd : (parse_nonstandard_json loads content).1[i]? = some d)
    (ht : doc_title_attr d = some t) :
    (parse_and_save_documents loads content outDir).saved[i]?
      = some (ospath_join outDir
          (String.mk (t.data.map (fun c => if c = ' ' || c = '/' then '_' else c))
            ++ ".json"), d) := by
  have hg := saveLoop_get outDir (parse_nonstandard_json loads content).1 hwf 0 i d hd
  rw [titleD_of_doc_title_attr d (0 + i) t ht, sanitize_title_eq_map] at hg
  exact hg

/-- C7 witness instance: a document titled My Dashboard is saved as
My_Dashboard.json. -/
theorem C7_witness :
    (parse_and_save_documents json_loads
        "\x7b\"attributes\": \x7b\"title\": \"My Dashboard\"\x7d\x7d" "out").saved[0]?
      = some ("out/My_Dashboard.json",
          Json.obj [("attributes", Json.obj [("title", Json.str "My Dashboard")])]) := by
  have h := C7_title_sanitization json_loads
    "\x7b\"attributes\": \x7b\"title\": \"My Dashboard\"\x7d\x7d" "out" (by decide) 0
    (Json.obj [("attributes", Json.obj [("title", Json.str "My Dashboard")])])
    "My Dashboard" rfl rfl
  rw [h]
  rfl

/-- C10: a blank or whitespace-only input line is skipped without a parse
attempt, a reported error or an output file: the splitter result equals
the result on the blank-filtered lines, it does not depend on what the
parse function would say on blank lines, and on a one-line whitespace
file the written files plus reported errors total zero, strictly below
the line count. -/
theorem C10_blank_lines_skipped :
    (∀ (loads : String → Option Json) (content : String),
        parse_nonstandard_json loads content
          = parseLines loads ((py_splitlines content).filter (fun l => !isBlankLine l)))
    ∧ (∀ (loads1 loads2 : String → Option Json) (lines : List String),
        (∀ l ∈ lines, isBlankLine l = false → loads1 l = loads2 l) →
        parseLines loads1 lines = parseLines loads2 lines)
    ∧ ((parse_and_save_documents json_loads " " "out").saved.length
          + (parse_and_save_documents json_loads " " "out").parseErrors = 0
        ∧ (py_splitlines " ").length = 1) := by
  refine ⟨?_, ?_, by decide⟩
  · intro loads content
    exact parseLines_skip_blank loads (py_splitlines content)
  · intro loads1 loads2 lines h
    exact parseLines_congr loads1 loads2 lines h

/-- C10 witness instance: replacing the parse function on blank lines
only does not change the splitter result. -/
theorem C10_witness :
    parseLines json_loads [" ", "\x7b\x7d"]
      = parseLines (fun l => if isBlankLine l then some Json.null else json_loads l)
          [" ", "\x7b\x7d"] :=
  C10_blank_lines_skipped.2.1 json_loads
    (fun l => if isBlankLine l then some Json.null else json_loads l)
    [" ", "\x7b\x7d"] (fun _ _ hb => by simp [hb])

/-- C2: a requested space id list with at least one id unknown to the
server makes validate_spaces exit with status one after computing every
offending id, and a fully known list is not fatal. -/
theorem C2_validate_invalid_spaces (reqs : List String) (all_spaces : List Space) :
    ((∃ s ∈ reqs, s ∉ all_spaces.map Space.id) →
      ∃ inv, validate_spaces (some reqs) all_spaces = ValidateResult.exited inv 1
        ∧ ∀ s ∈ reqs, s ∉ all_spaces.map Space.id → s ∈ inv)
    ∧ ((∀ s ∈ reqs, s ∈ all_spaces.map Space.id) →
      validate_spaces (some reqs) all_spaces = ValidateResult.returned) := by
  constructor
  · rintro ⟨s, hs, hns⟩
    have hne : reqs.isEmpty = false := by
      cases reqs with
      | nil => simp at hs
      | cons a l => rfl
    refine ⟨reqs.filter (fun x => !(all_spaces.map Space.id).contains x), ?_, ?_⟩
    · unfold validate_spaces truthy
      simp [hne, Option.getD]
      exact ⟨s, hs, by simpa using hns⟩
    · intro x hx hnx
      exact List.mem_filter.mpr ⟨hx, by simp [hnx]⟩
  · intro hall
    unfold validate_spaces truthy
    by_cases he : reqs.isEmpty = true
    · simp [he, Option.getD]
    · simp [he, Option.getD]
      intro x hx
      simpa using hall x hx

/-- C2 witness instance: requesting a and c against known spaces a and b
exits with the offending id c computed; requesting a alone returns. -/
theorem C2_witness :
    (∃ inv, validate_spaces (some ["a", "c"]) [⟨"a", Json.null⟩, ⟨"b", Json.null⟩]
        = ValidateResult.exited inv 1
      ∧ ∀ s ∈ ["a", "c"],
          s ∉ ([⟨"a", Json.null⟩, ⟨"b", Json.null⟩] : List Space).map Space.id → s ∈ inv)
    ∧ validate_spaces (some ["a"]) [⟨"a", Json.null⟩, ⟨"b", Json.null⟩]
        = ValidateResult.returned := by
  constructor
  · exact (C2_validate_invalid_spaces ["a", "c"] [⟨"a", Json.null⟩, ⟨"b", Json.null⟩]).1
      ⟨"c", by simp, by simp⟩
  · exact (C2_validate_invalid_spaces ["a"] [⟨"a", Json.null⟩, ⟨"b", Json.null⟩]).2
      (by simp)

/-- C5: with the spaces argument omitted or empty, validation returns
without error and the selection is the full server list. -/
theorem C5_empty_selection_all_spaces (args_spaces : Option (List String))
    (all_spaces : List Space) (h : truthy args_spaces = false) :
    validate_spaces args_spaces all_spaces = ValidateResult.returned
    ∧ spaces_to_export args_spaces all_spaces = all_spaces := by
  constructor
  · unfold validate_spaces
    simp [h]
  · unfold spaces_to_export
    simp [h]

/-- C5 witness instance. -/
theorem C5_witness :
    validate_spaces none [⟨"a", Json.null⟩] = ValidateResult.returned
    ∧ spaces_to_export none [⟨"a", Json.null⟩] = [⟨"a", Json.null⟩] :=
  C5_empty_selection_all_spaces none [⟨"a", Json.null⟩] rfl

/-- C8: a 2xx export response is written verbatim: the raw response
content goes unchanged to the space file under the export directory. -/
theorem C8_success_raw_write (r : Response) (export_dir space_id : String)
    (h1 : 200 ≤ r.status_code) (h2 : r.status_code < 300) :
    export_objects r export_dir space_id
        = ExportResult.written (ospath_join export_dir (space_id ++ ".json")) r.content
    ∧ ∀ fs : FS, apply_export fs (export_objects r export_dir space_id)
        = fsWrite fs (ospath_join export_dir (space_id ++ ".json")) r.content := by
  have hno : ¬(400 ≤ r.status_code ∧ r.status_code < 600) := by omega
  constructor
  · unfold export_objects
    rw [if_neg hno]
  · intro fs
    unfold export_objects apply_export
    rw [if_neg hno]

/-- C8 witness instance. -/
theorem C8_witness :
    export_objects ⟨200, "rawbytes", "rawbytes"⟩ "export" "s1"
      = ExportResult.written (ospath_join "export" ("s1" ++ ".json")) "rawbytes" :=
  (C8_success_raw_write ⟨200, "rawbytes", "rawbytes"⟩ "export" "s1"
    (by decide) (by decide)).1

/-- C4 (amended): the space detail step writes the single file
spaces_details.json under the export directory, holding the dump of the
selected spaces; that is the full server list exactly when the spaces
argument is falsy. -/
theorem C4_amended_space_details (args_spaces : Option (List String))
    (all_spaces : List Space) (export_dir : String) :
    (export_space_details (spaces_to_export args_spaces all_spaces) export_dir).1
        = ospath_join export_dir "spaces_details.json"
    ∧ (export_space_details (spaces_to_export args_spaces all_spaces) export_dir).2
        = json_dump (Json.arr ((spaces_to_export args_spaces all_spaces).map Space.data))
    ∧ (truthy args_spaces = false → spaces_to_export args_spaces all_spaces = all_spaces) := by
  refine ⟨rfl, rfl, ?_⟩
  intro h
  unfold spaces_to_export
  simp [h]

/-- C4 witness instance. -/
theorem C4_witness :
    spaces_to_export none [⟨"a", Json.str "A"⟩] = [⟨"a", Json.str "A"⟩] :=
  (C4_amended_space_details none [⟨"a", Json.str "A"⟩] "export").2.2 rfl

/-- C4 counterexample: two known spaces, one requested. The file content
is the dump of the selected subset and differs from the dump of the full
retrieved list, so the claim that the full list is written fails. -/
theorem C4_counterexample :
    (export_space_details
        (spaces_to_export (some ["a"]) [⟨"a", Json.str "A"⟩, ⟨"b", Json.str "B"⟩])
        "export").2
      = json_dump (Json.arr [Json.str "A"])
    ∧ (spaces_to_export (some ["a"])
        [⟨"a", Json.str "A"⟩, ⟨"b", Json.str "B"⟩]).map Space.id = ["a"]
    ∧ json_dump (Json.arr [Json.str "A"])
        ≠ json_dump (Json.arr ([⟨"a", Json.str "A"⟩, ⟨"b", Json.str "B"⟩].map Space.data)) := by
  refine ⟨by decide, by decide, by decide⟩

/-- C9 (amended): the splitter input path of the main loop is the
hardcoded export slash space id dot json, whatever the export directory;
export and split agree on the file exactly when the export directory is
export, with or without a trailing slash. -/
theorem C9_amended_hardcoded_input_path :
    (∀ space_id : String, split_input_file space_id = "export/" ++ space_id ++ ".json")
    ∧ (∀ export_dir space_id : String, space_id.data.head? ≠ some '/' →
        (ospath_join export_dir (space_id ++ ".json") = split_input_file space_id
          ↔ (export_dir = "export" ∨ export_dir = "export/"))) := by
  constructor
  · intro sid
    rfl
  · intro dir sid h
    have hjson : ".json".data = ['.', 'j', 's', 'o', 'n'] := by decide
    have hb : (sid ++ ".json").data.head? ≠ some '/' := by
      rw [String.data_append, hjson]
      cases hsd : sid.data with
      | nil => simp
      | cons c cs =>
        rw [hsd] at h
        simpa using h
    have hexp : "export/".data = "export".data ++ ['/'] := by decide
    have hslash : "/".data = ['/'] := by decide
    unfold ospath_join split_input_file
    rw [if_neg hb]
    by_cases hdir0 : dir = ""
    · subst hdir0
      rw [if_pos rfl]
      constructor
      · intro he
        exfalso
        have hd := congrArg (fun s : String => s.data.length) he
        simp [String.data_append] at hd
      · rintro (h1 | h1) <;> exact absurd h1.symm (by decide)
    · rw [if_neg hdir0]
      by_cases hend : dir.data.getLast? = some '/'
      · rw [if_pos hend]
        constructor
        · intro he
          right
          have hd := congrArg String.data he
          simp only [String.data_append, hexp, List.append_assoc] at hd
          exact str_ext (List.append_cancel_right hd)
        · rintro (h1 | h1)
          · subst h1
            exact absurd hend (by decide)
          · subst h1
            apply str_ext
            simp [String.data_append, List.append_assoc]
      · rw [if_neg hend]
        constructor
        · intro he
          left
          have hd := congrArg String.data he
          simp only [String.data_append, hexp, hslash, List.append_assoc,
            List.singleton_append, List.cons_append] at hd
          have hd2 : dir.data ++ ('/' :: (sid.data ++ ".json".data))
              = "export".data ++ ('/' :: (sid.data ++ ".json".data)) := by
            simpa using hd
          exact str_ext (List.append_cancel_right hd2)
        · rintro (h1 | h1)
          · subst h1
            apply str_ext
            simp [String.data_append, hexp, hslash, List.append_assoc]
          · subst h1
            exact absurd hend (by decide)

/-- C9 witness instance: with the export directory named export the two
paths agree. -/
theorem C9_witness :
    ospath_join "export" ("s1" ++ ".json") = split_input_file "s1" :=
  (C9_amended_hardcoded_input_path.2 "export" "s1" (by decide)).mpr (Or.inl rfl)

/-- C9 counterexample: the export directory export with a trailing slash
also makes the written path coincide with the hardcoded splitter input,
refuting the claim that only the literal export is consistent. -/
theorem C9_counterexample :
    ospath_join "export/" ("a" ++ ".json") = split_input_file "a"
    ∧ ("export/" : String) ≠ "export" := by
  constructor
  · decide
  · decide

theorem process_space_fields (loads : String → Option Json) (export_dir : String)
    (fs : FS) (sp : Space) (r : Response) :
    ∀ (fs1 : FS) (rec : SpaceRecord) (err : Option RunError),
      process_space loads export_dir fs sp r = (fs1, rec, err) →
      rec.space_id = sp.id
      ∧ rec.exportResult = export_objects r export_dir sp.id
      ∧ (err = none → rec.split.isSome = true) := by
  intro fs1 rec err heq
  cases hR : fsRead (apply_export fs (export_objects r export_dir sp.id))
      (split_input_file sp.id) with
  | none =>
    simp only [process_space, hR, Prod.mk.injEq] at heq
    obtain ⟨h1, h2, h3⟩ := heq
    subst h2
    refine ⟨rfl, rfl, ?_⟩
    intro hn
    rw [← h3] at hn
    exact absurd hn (by simp)
  | some content =>
    cases hC : (parse_and_save_documents loads content (split_output_dir sp.id)).crash with
    | none =>
      simp only [process_space, hR, hC, Prod.mk.injEq] at heq
      obtain ⟨h1, h2, h3⟩ := heq
      subst h2
      exact ⟨rfl, rfl, fun _ => rfl⟩
    | some e =>
      simp only [process_space, hR, hC, Prod.mk.injEq] at heq
      obtain ⟨h1, h2, h3⟩ := heq
      subst h2
      refine ⟨rfl, rfl, ?_⟩
      intro hn
      rw [← h3] at hn
      exact absurd hn (by simp)

theorem run_loop_complete (loads : String → Option Json) (export_dir : String)
    (resp : String → Response) :
    ∀ (spaces : List Space) (fs : FS),
      (run_loop loads export_dir resp spaces fs).2.2 = none →
      (run_loop loads export_dir resp spaces fs).2.1.map SpaceRecord.space_id
          = spaces.map Space.id
      ∧ ∀ rec ∈ (run_loop loads export_dir resp spaces fs).2.1,
          rec.split.isSome = true := by
  intro spaces
  induction spaces with
  | nil =>
    intro fs _
    simp [run_loop]
  | cons sp rest ih =>
    intro fs h
    rcases hps : process_space loads export_dir fs sp (resp sp.id) with ⟨fs1, rec, err⟩
    cases err with
    | some e =>
      simp only [run_loop, hps] at h
      exact absurd h (by simp)
    | none =>
      rcases hrl : run_loop loads export_dir resp rest fs1 with ⟨fs2, recs, e2⟩
      simp only [run_loop, hps, hrl] at h ⊢
      have hpair := ih fs1 (by rw [hrl]; exact h)
      rw [hrl] at hpair
      have hmap : recs.map SpaceRecord.space_id = rest.map Space.id := hpair.1
      have hall : ∀ x ∈ recs, x.split.isSome = true := hpair.2
      obtain ⟨hid, hexp2, hsp⟩ :=
        process_space_fields loads export_dir fs sp (resp sp.id) fs1 rec none hps
      refine ⟨?_, ?_⟩
      · simp [hmap, hid]
      · intro x hx
        rcases List.mem_cons.mp hx with hx | hx
        · subst hx
          exact hsp rfl
        · exact hall x hx

/-- C3 (amended): an export response with status 4xx or 5xx makes
export_objects log the failure and the response body, write nothing for
that space, and return normally; and in every main loop run that ends
without an uncaught exception each selected space got its record,
exported and split. A failed export leaves the hardcoded split input
file missing, which aborts the run instead, as the counterexample
shows. -/
theorem C3_amended_export_failure_policy :
    (∀ (r : Response) (export_dir space_id : String),
        400 ≤ r.status_code → r.status_code < 600 →
        export_objects r export_dir space_id
            = ExportResult.skipped ("Failed to export objects for space " ++ space_id)
                ("Response was: " ++ r.text)
          ∧ ∀ fs : FS, apply_export fs (export_objects r export_dir space_id) = fs)
    ∧ (∀ (loads : String → Option Json) (export_dir : String)
        (resp : String → Response) (spaces : List Space) (fs : FS),
        (run_loop loads export_dir resp spaces fs).2.2 = none →
        (run_loop loads export_dir resp spaces fs).2.1.map SpaceRecord.space_id
            = spaces.map Space.id
        ∧ ∀ rec ∈ (run_loop loads export_dir resp spaces fs).2.1,
            rec.split.isSome = true) := by
  constructor
  · intro r export_dir space_id h1 h2
    have hyes : 400 ≤ r.status_code ∧ r.status_code < 600 := ⟨h1, h2⟩
    constructor
    · unfold export_objects
      rw [if_pos hyes]
    · intro fs
      unfold export_objects apply_export
      rw [if_pos hyes]
  · exact run_loop_complete

/-- C3 witness instance: the skip on a 500 response, and a completing
one-space run whose record list covers the space list. -/
theorem C3_witness :
    export_objects ⟨500, "", "boom"⟩ "export" "s1"
        = ExportResult.skipped ("Failed to export objects for space " ++ "s1")
            ("Response was: " ++ "boom")
    ∧ (run_loop json_loads "export" (fun _ => ⟨200, "", ""⟩)
          [⟨"s1", Json.null⟩] []).2.1.map SpaceRecord.space_id
        = ([⟨"s1", Json.null⟩] : List Space).map Space.id := by
  constructor
  · exact (C3_amended_export_failure_policy.1 ⟨500, "", "boom"⟩ "export" "s1"
      (by decide) (by decide)).1
  · exact (C3_amended_export_failure_policy.2 json_loads "export"
      (fun _ => ⟨200, "", ""⟩) [⟨"s1", Json.null⟩] [] rfl).1

/-- C3 counterexample: two spaces, an initially empty filesystem, the
export directory named export. The first export returns 500 and is
skipped; the splitter then opens the missing hardcoded input file and
the run dies, so the second space is never exported: the claim that
every subsequent space is still exported and split fails. -/
theorem C3_counterexample :
    (run_loop json_loads "export"
        (fun sid => if sid = "s1" then ⟨500, "", "Internal Server Error"⟩
          else ⟨200, "", ""⟩)
        [⟨"s1", Json.null⟩, ⟨"s2", Json.null⟩] []).2.1.map SpaceRecord.space_id
      = ["s1"]
    ∧ ((fun sid => if sid = "s1" then (⟨500, "", "Internal Server Error"⟩ : Response)
          else ⟨200, "", ""⟩) "s1").status_code = 500
    ∧ ([⟨"s1", Json.null⟩, ⟨"s2", Json.null⟩] : List Space).map Space.id
      = ["s1", "s2"] := by
  refine ⟨by decide, by decide, by decide⟩

end KibanaExport
